import Mathlib

/-!
Verification of the photo export-reconciliation pipeline (photoExport.py).

The program is shallowly embedded: paths and filenames are lists of
characters, the destination filesystem is an association list from paths to
abstract byte contents (a `Nat`), the process-wide report is a record of five
counters, and external effects (image decoding, perceptual hashing, network
visibility of a freshly written file, `os.utime` success) are supplied by an
explicit environment.  SHA-256 content hashing is modelled as the identity on
contents (a collision-free digest).  `os.makedirs` is a no-op in the
content-map model.  The export primitive (`osxphotos` `photo.export`) is
external to the repository and is modelled from the spec: it writes the
variant's bytes at `dir/filename`, renaming to the collision-suffixed sibling
`stem (1).ext` when the target already exists.
-/

namespace PhotoExport

abbrev Path := List Char

abbrev FS := List (Path × Nat)

def lookupFS : FS → Path → Option Nat
  | [], _ => none
  | (k, v) :: rest, p => if k = p then some v else lookupFS rest p

def insertFS (fs : FS) (p : Path) (v : Nat) : FS :=
  (p, v) :: fs

/-- `str.lower()` (ASCII case folding suffices for the filenames involved). -/
def toLowerL (s : List Char) : List Char :=
  s.map Char.toLower

/-- Last index of character `c` in `s`, or `-1` when absent (`str.rfind`). -/
def rfindI (s : List Char) (c : Char) : Int :=
  match s.reverse.findIdx? (fun x => x = c) with
  | none => -1
  | some i => (s.length : Int) - 1 - (i : Int)

/-- `os.path.splitext`: split off the extension at the last dot of the last
path component, except when the component consists only of leading dots. -/
def splitextFull (p : Path) : Path × Path :=
  let sepI : Int := rfindI p '/'
  let dotI : Int := rfindI p '.'
  if sepI < dotI ∧
      (List.range p.length).any (fun j =>
        decide (sepI < (j : Int)) && decide ((j : Int) < dotI) &&
          decide (p.getD j '.' ≠ '.')) then
    (p.take dotI.toNat, p.drop dotI.toNat)
  else
    (p, [])

/-- `os.path.basename` for the slash-separated paths this program builds. -/
def basename (p : Path) : Path :=
  (p.reverse.takeWhile (fun c => c ≠ '/')).reverse

/-- `os.path.dirname` for the slash-separated paths this program builds. -/
def dirname (p : Path) : Path :=
  let head := p.take (p.length - (basename p).length)
  if head.all (fun c => c = '/') then head
  else (head.reverse.dropWhile (fun c => c = '/')).reverse

/-- `os.path.join` for one extra component. -/
def joinPath (a b : Path) : Path :=
  if b.head? = some '/' then b
  else if a = [] ∨ a.getLast? = some '/' then a ++ b
  else a ++ '/' :: b

/-- Python `str.replace(pat, rep)`: every non-overlapping occurrence, left
to right (the program only calls it with the one-character pattern ".").
Each step consumes at least one character, so `s.length` steps of fuel make
the recursion structural. -/
def pyReplaceFuel (pat rep : List Char) : Nat → List Char → List Char
  | 0, s => s
  | _ + 1, [] => []
  | fuel + 1, c :: rest =>
      if pat ≠ [] ∧ pat.isPrefixOf (c :: rest) then
        rep ++ pyReplaceFuel pat rep fuel ((c :: rest).drop pat.length)
      else
        c :: pyReplaceFuel pat rep fuel rest

def pyReplace (pat rep s : List Char) : List Char :=
  pyReplaceFuel pat rep s.length s

def isDigitCh (c : Char) : Bool :=
  decide ('0' ≤ c) && decide (c ≤ '9')

/-- `re.match(r'^IMG_\d{4}\.(jpg|heic)$', filename, re.IGNORECASE)`. -/
def matchesCanonical (s : Path) : Bool :=
  match s with
  | i :: m :: g :: u :: a :: b :: c :: d :: rest =>
      (Char.toLower i == 'i') && (Char.toLower m == 'm') &&
        (Char.toLower g == 'g') && (u == '_') &&
        isDigitCh a && isDigitCh b && isDigitCh c && isDigitCh d &&
        (toLowerL rest == ".jpg".toList || toLowerL rest == ".heic".toList)
  | _ => false

/-- Attempt to match `IMG_\d{4}` at the start of `s`. -/
def headIMG (s : Path) : Option Path :=
  match s with
  | 'I' :: 'M' :: 'G' :: '_' :: a :: b :: c :: d :: _ =>
      if isDigitCh a && isDigitCh b && isDigitCh c && isDigitCh d then
        some ('I' :: 'M' :: 'G' :: '_' :: a :: b :: c :: d :: [])
      else none
  | _ => none

/-- `re.search(r'IMG_\d{4}', s)`: first match, scanning left to right
(case sensitive — the source passes no flag here). -/
def searchIMG : Path → Option Path
  | [] => none
  | c :: rest =>
    match headIMG (c :: rest) with
    | some m => some m
    | none => searchIMG rest

/-- `extract_img_pattern` from the source. -/
def extract_img_pattern (filename : Path) : Path :=
  if !(List.isSuffixOf (".jpg".toList) (toLowerL filename) ||
        List.isSuffixOf (".heic".toList) (toLowerL filename)) then
    filename
  else if matchesCanonical filename then
    filename
  else
    match searchIMG filename with
    | some m => m ++ (splitextFull filename).2
    | none => filename

/-- `get_live_photo_name` from the source. -/
def get_live_photo_name (photo_name : Path) : Path :=
  (splitextFull photo_name).1 ++ "_HEVC.MOV".toList

/-- The five process-wide counters of the report dictionary. -/
structure Report where
  originals_exported : Nat
  edits_exported : Nat
  live_photos_exported : Nat
  duplicates_skipped : Nat
  duplicates_created : Nat
deriving DecidableEq

/-- An element of `failed_files`: the dict also stores `date.timestamp()`,
which is derived from `date` and is omitted here. -/
structure FailedEntry where
  path : Path
  date : Int
deriving DecidableEq

/-- Trace of the observable external calls a reconciler call makes. -/
inductive Event where
  | exportCall (dir file : Path) (useEdited livePhoto : Bool)
  | setTime (path : Path) (date : Int) (attempts : Nat)
deriving DecidableEq

def isExportEvent : Event → Bool
  | Event.exportCall _ _ _ _ => true
  | Event.setTime _ _ _ => false

/-- Mutable process state: destination filesystem, report, failure list, and
the trace of external calls. -/
structure St where
  fs : FS
  report : Report
  failed_files : List FailedEntry
  events : List Event
deriving DecidableEq

/-- A photo record as exposed by the library source (external collaborator).
`srcBytes e l` is the byte content the export primitive writes for the
variant selected by `(use_photos_export := e, live_photo := l)`. -/
structure Photo where
  path : Path
  path_edited : Path
  original_filename : Path
  date : Int
  dateDay : Int
  year : Nat
  month : Nat
  hasadjustments : Bool
  live_photo : Bool
  srcBytes : Bool → Bool → Nat

/-- External nondeterminism: whether a content decodes and perceptually
hashes without error, its perceptual hash, network visibility of a freshly
written file at each polling attempt, and whether `os.utime` succeeds. -/
structure Env where
  imgOk : Nat → Bool
  phash : Nat → Nat
  visible : Nat → Bool
  utimeOk : Bool

def SUPPORTED_IMAGE_FORMATS : List Path :=
  [".jpg".toList, ".jpeg".toList, ".png".toList, ".bmp".toList,
    ".tiff".toList, ".gif".toList, ".heic".toList, ".avif".toList]

/-- `file_hash`: SHA-256 digest, modelled as the (collision-free) content
itself.  Reading a missing file would raise in Python; the claims below only
compare files that are present. -/
def file_hash (fs : FS) (p : Path) : Option Nat :=
  lookupFS fs p

/-- `file_hashes_match` from the source: perceptual comparison for supported
image formats, falling back to exact content hashing when either extension is
unsupported or when decoding / perceptual hashing fails. -/
def file_hashes_match (env : Env) (fs : FS) (photo_path existing_path : Path) : Bool :=
  let photo_ext := toLowerL (splitextFull photo_path).2
  let existing_ext := toLowerL (splitextFull existing_path).2
  if photo_ext ∉ SUPPORTED_IMAGE_FORMATS ∨ existing_ext ∉ SUPPORTED_IMAGE_FORMATS then
    file_hash fs photo_path == file_hash fs existing_path
  else
    match lookupFS fs photo_path, lookupFS fs existing_path with
    | some c1, some c2 =>
        if env.imgOk c1 && env.imgOk c2 then
          env.phash c1 == env.phash c2
        else
          file_hash fs photo_path == file_hash fs existing_path
    | _, _ => file_hash fs photo_path == file_hash fs existing_path

/-- The `for _ in range(5)` polling loop: returns the number of existence
checks used when the file becomes visible within 5 attempts. -/
def tsRetryAux (visible : Nat → Bool) : Nat → Nat → Option Nat
  | 0, _ => none
  | n + 1, i => if visible i then some (i + 1) else tsRetryAux visible n (i + 1)

def tsRetry (visible : Nat → Bool) : Option Nat :=
  tsRetryAux visible 5 0

/-- Timestamp synchronization as performed in the exists-with-mismatch branch
(source lines 190-204): up to 5 polls, 1 second apart; on the first visible
attempt `set_file_timestamp` runs (any error there is caught and recorded);
if never visible, a failure entry is recorded. -/
def sync_timestamp_retry (env : Env) (photo : Photo) (path : Path) (st : St) : St :=
  match tsRetry env.visible with
  | some k =>
      if env.utimeOk then
        { st with events := st.events ++ [Event.setTime path photo.date k] }
      else
        { st with failed_files := st.failed_files ++ [⟨path, photo.date⟩] }
  | none =>
      { st with failed_files := st.failed_files ++ [⟨path, photo.date⟩] }

/-- Timestamp synchronization as performed in the fresh-export branch
(source lines 226-234): a single immediate `set_file_timestamp` call with no
polling loop; `FileNotFoundError` or any other error records a failure. -/
def sync_timestamp_once (env : Env) (photo : Photo) (path : Path) (st : St) : St :=
  if env.visible 0 && env.utimeOk then
    { st with events := st.events ++ [Event.setTime path photo.date 1] }
  else
    { st with failed_files := st.failed_files ++ [⟨path, photo.date⟩] }

/-- The collision-suffixed sibling path computed by the source (line 167):
`os.path.basename(path).replace(".", " (1).")` rejoined to the directory. -/
def duplicate_path (path : Path) : Path :=
  joinPath (dirname path) (pyReplace (".".toList) (" (1).".toList) (basename path))

/-- Modelled from the spec: the external export primitive writes the
variant's bytes to `dir/file`, renaming to the collision-suffixed sibling
`stem (1).ext` when the target filename already exists at call time. -/
def exportPrimitive (fs : FS) (dir file : Path) (bytes : Nat) : FS :=
  let target := joinPath dir file
  if (lookupFS fs target).isSome then
    insertFS fs ((splitextFull target).1 ++ " (1)".toList ++ (splitextFull target).2) bytes
  else
    insertFS fs target bytes

/-- The per-variant report update at the end of both export branches. -/
def bumpExported (is_edited is_live : Bool) (r : Report) : Report :=
  if is_edited then { r with edits_exported := r.edits_exported + 1 }
  else if is_live then { r with live_photos_exported := r.live_photos_exported + 1 }
  else { r with originals_exported := r.originals_exported + 1 }

/-- `export_photo_variant` from the source: the duplicate reconciler.
Returns `(is_duplicate, new state)`. -/
def export_photo_variant (env : Env) (photo : Photo) (is_edited is_live : Bool)
    (path : Path) (st : St) : Bool × St :=
  if (lookupFS st.fs path).isSome then
    let photo_path := if is_edited then photo.path_edited else photo.path
    if file_hashes_match env st.fs photo_path path then
      (true, { st with report :=
        { st.report with duplicates_skipped := st.report.duplicates_skipped + 1 } })
    else
      let dpath := duplicate_path path
      let pre_existing_duplicate := (lookupFS st.fs dpath).isSome
      if pre_existing_duplicate && file_hashes_match env st.fs photo_path dpath then
        (true, { st with report :=
          { st.report with duplicates_skipped := st.report.duplicates_skipped + 1 } })
      else
        let st1 :=
          if pre_existing_duplicate then st
          else
            { st with
              fs := exportPrimitive st.fs (dirname path) (basename path)
                      (photo.srcBytes is_edited is_live),
              events := st.events ++
                [Event.exportCall (dirname path) (basename path) is_edited is_live] }
        let created := (lookupFS st1.fs dpath).isSome && !pre_existing_duplicate
        let st2 :=
          if created then
            { st1 with report :=
              { st1.report with duplicates_created := st1.report.duplicates_created + 1 } }
          else st1
        let outPath := if created then dpath else path
        let st3 := sync_timestamp_retry env photo outPath st2
        (false, { st3 with report := bumpExported is_edited is_live st3.report })
  else
    let st1 :=
      { st with
        fs := exportPrimitive st.fs (dirname path) (basename path)
                (photo.srcBytes is_edited is_live),
        events := st.events ++
          [Event.exportCall (dirname path) (basename path) is_edited is_live] }
    let st2 := sync_timestamp_once env photo path st1
    (false, { st2 with report := bumpExported is_edited is_live st2.report })

def EXPORT_PATH : Path :=
  "/Volumes/Archive/Picture Sources 01 RAW/15. iCloud Photos".toList

def natStr (n : Nat) : List Char :=
  (toString n).toList

/-- `f"{photo.date.month:02}"`. -/
def month2 (m : Nat) : List Char :=
  if m < 10 then '0' :: natStr m else natStr m

/-- `os.path.join(EXPORT_PATH, str(photo.date.year), f"{photo.date.month:02}")`. -/
def ymDir (photo : Photo) : Path :=
  joinPath (joinPath EXPORT_PATH (natStr photo.year)) (month2 photo.month)

def origFilename (photo : Photo) : Path :=
  extract_img_pattern photo.original_filename

def origTarget (photo : Photo) : Path :=
  joinPath (ymDir photo) (origFilename photo)

def editedFilename (photo : Photo) : Path :=
  (splitextFull (origFilename photo)).1 ++ "-edited".toList ++
    (splitextFull (origFilename photo)).2

def editedTarget (photo : Photo) : Path :=
  joinPath (ymDir photo) (editedFilename photo)

def liveTarget (photo : Photo) : Path :=
  joinPath (ymDir photo) (get_live_photo_name (origFilename photo))

/-- One iteration of the driver's loop body: original first, then (gated on
the original not being a duplicate) the edited and live variants. -/
def process_photo (env : Env) (st : St) (photo : Photo) : St :=
  let r := export_photo_variant env photo false false (origTarget photo) st
  if r.1 then r.2
  else
    let st2 :=
      if photo.hasadjustments then
        (export_photo_variant env photo true false (editedTarget photo) r.2).2
      else r.2
    if photo.live_photo then
      (export_photo_variant env photo false true (liveTarget photo) st2).2
    else st2

def OVERLAP_PERIOD : Int := 35

def START_DATE (today : Int) : Int :=
  today - OVERLAP_PERIOD

/-- `export_photos` from the source: filter the library by capture date,
then process each photo in enumeration order. -/
def export_photos (env : Env) (today : Int) (photos : List Photo) (st : St) : St :=
  List.foldl (process_photo env) st
    (photos.filter (fun p => decide (START_DATE today ≤ p.dateDay)))

/-! ### Helper lemmas -/

theorem lookup_insert (fs : FS) (k q : Path) (v : Nat) :
    lookupFS (insertFS fs k v) q = if k = q then some v else lookupFS fs q := by
  simp [insertFS, lookupFS]

theorem sync_retry_report (env : Env) (photo : Photo) (path : Path) (st : St) :
    (sync_timestamp_retry env photo path st).report = st.report := by
  unfold sync_timestamp_retry
  split
  · split <;> rfl
  · rfl

theorem sync_retry_fs (env : Env) (photo : Photo) (path : Path) (st : St) :
    (sync_timestamp_retry env photo path st).fs = st.fs := by
  unfold sync_timestamp_retry
  split
  · split <;> rfl
  · rfl

theorem sync_retry_events_filter (env : Env) (photo : Photo) (path : Path) (st : St) :
    ((sync_timestamp_retry env photo path st).events).filter isExportEvent
      = st.events.filter isExportEvent := by
  unfold sync_timestamp_retry
  split
  · split
    · simp [isExportEvent]
    · rfl
  · rfl

theorem sync_once_report (env : Env) (photo : Photo) (path : Path) (st : St) :
    (sync_timestamp_once env photo path st).report = st.report := by
  unfold sync_timestamp_once
  split <;> rfl

theorem sync_once_fs (env : Env) (photo : Photo) (path : Path) (st : St) :
    (sync_timestamp_once env photo path st).fs = st.fs := by
  unfold sync_timestamp_once
  split <;> rfl

theorem sync_once_events_filter (env : Env) (photo : Photo) (path : Path) (st : St) :
    ((sync_timestamp_once env photo path st).events).filter isExportEvent
      = st.events.filter isExportEvent := by
  unfold sync_timestamp_once
  split
  · simp [isExportEvent]
  · rfl

/-- Which of the three exported counters belongs to the variant. -/
def exportedCounter (is_edited is_live : Bool) (r : Report) : Nat :=
  if is_edited then r.edits_exported
  else if is_live then r.live_photos_exported
  else r.originals_exported

theorem bump_counter (e l : Bool) (r : Report) :
    exportedCounter e l (bumpExported e l r) = exportedCounter e l r + 1 := by
  cases e <;> cases l <;> simp [exportedCounter, bumpExported]

theorem bump_skipped (e l : Bool) (r : Report) :
    (bumpExported e l r).duplicates_skipped = r.duplicates_skipped := by
  cases e <;> cases l <;> simp [bumpExported]

theorem bump_created (e l : Bool) (r : Report) :
    (bumpExported e l r).duplicates_created = r.duplicates_created := by
  cases e <;> cases l <;> simp [bumpExported]

/-! ### C9 -/

/-- C9: every call to `export_photo_variant` increments exactly one of
duplicates-skipped and the variant's exported counter by exactly 1
(duplicates-created may additionally be incremented by 1 alongside an
exported counter), never decrements any counter, and returns `true` exactly
when the incremented counter was duplicates-skipped. -/
theorem C9_counter_discipline (env : Env) (photo : Photo) (e l : Bool)
    (path : Path) (st : St) :
    (export_photo_variant env photo e l path st).2.report.duplicates_skipped
        = st.report.duplicates_skipped
          + (if (export_photo_variant env photo e l path st).1 then 1 else 0) ∧
    exportedCounter e l (export_photo_variant env photo e l path st).2.report
        = exportedCounter e l st.report
          + (if (export_photo_variant env photo e l path st).1 then 0 else 1) ∧
    (export_photo_variant env photo e l path st).2.report.originals_exported
        = st.report.originals_exported
          + (if !(export_photo_variant env photo e l path st).1 && !e && !l then 1 else 0) ∧
    (export_photo_variant env photo e l path st).2.report.edits_exported
        = st.report.edits_exported
          + (if !(export_photo_variant env photo e l path st).1 && e then 1 else 0) ∧
    (export_photo_variant env photo e l path st).2.report.live_photos_exported
        = st.report.live_photos_exported
          + (if !(export_photo_variant env photo e l path st).1 && !e && l then 1 else 0) ∧
    st.report.duplicates_created
        ≤ (export_photo_variant env photo e l path st).2.report.duplicates_created ∧
    (export_photo_variant env photo e l path st).2.report.duplicates_created
        ≤ st.report.duplicates_created
          + (if (export_photo_variant env photo e l path st).1 then 0 else 1) := by
  unfold export_photo_variant
  by_cases h1 : (lookupFS st.fs path).isSome
  · simp only [h1, if_true]
    by_cases h2 : file_hashes_match env st.fs (if e then photo.path_edited else photo.path) path
    · simp only [h2, if_true]
      cases e <;> cases l <;> simp [exportedCounter]
    · simp only [h2]
      by_cases h3 : (lookupFS st.fs (duplicate_path path)).isSome
          && file_hashes_match env st.fs (if e then photo.path_edited else photo.path)
              (duplicate_path path)
      · simp only [h3, if_true]
        cases e <;> cases l <;> simp [exportedCounter]
      · simp only [h3, Bool.false_eq_true, if_false, sync_retry_report]
        by_cases h4 : (lookupFS st.fs (duplicate_path path)).isSome
        · simp only [h4, if_true]
          cases e <;> cases l <;>
            simp [exportedCounter, bumpExported, sync_retry_report]
        · simp only [h4]
          by_cases h5 :
            (lookupFS
              (exportPrimitive st.fs (dirname path) (basename path) (photo.srcBytes e l))
              (duplicate_path path)).isSome
          · cases e <;> cases l <;>
              simp [exportedCounter, bumpExported, sync_retry_report, h5, h4]
          · cases e <;> cases l <;>
              simp [exportedCounter, bumpExported, sync_retry_report, h5, h4]
  · simp only [h1]
    cases e <;> cases l <;>
      simp [exportedCounter, bumpExported, sync_once_report]

/-! ### C8 -/

/-- C8: whenever a call to `export_photo_variant` appends to the failure
list, the same call also increments the variant's exported counter — a
timestamp failure never cancels or prevents the export count. -/
theorem C8_failure_entry_implies_export_counted (env : Env) (photo : Photo)
    (e l : Bool) (path : Path) (st : St)
    (h : st.failed_files.length
        < (export_photo_variant env photo e l path st).2.failed_files.length) :
    exportedCounter e l (export_photo_variant env photo e l path st).2.report
      = exportedCounter e l st.report + 1 := by
  unfold export_photo_variant at h ⊢
  by_cases h1 : (lookupFS st.fs path).isSome
  · simp only [h1, if_true] at h ⊢
    by_cases h2 : file_hashes_match env st.fs
        (if e then photo.path_edited else photo.path) path
    · simp [h2] at h
    · simp only [h2] at h ⊢
      by_cases h3 : (lookupFS st.fs (duplicate_path path)).isSome
          && file_hashes_match env st.fs (if e then photo.path_edited else photo.path)
              (duplicate_path path)
      · simp [h3] at h
      · simp only [h3, Bool.false_eq_true, if_false]
        by_cases h4 : (lookupFS st.fs (duplicate_path path)).isSome
        · cases e <;> cases l <;>
            simp [h4, sync_retry_report, exportedCounter, bumpExported]
        · by_cases h5 :
            (lookupFS
              (exportPrimitive st.fs (dirname path) (basename path) (photo.srcBytes e l))
              (duplicate_path path)).isSome
          · cases e <;> cases l <;>
              simp [h4, h5, sync_retry_report, exportedCounter, bumpExported]
          · cases e <;> cases l <;>
              simp [h4, h5, sync_retry_report, exportedCounter, bumpExported]
  · simp only [h1]
    simp [sync_once_report, bump_counter]

/-- Witness for C8 at a concrete state: the target is fresh, the file never
becomes visible, so a failure entry is recorded and the exported counter is
still incremented. -/
theorem C8_witness :
    exportedCounter false false
      (export_photo_variant (Env.mk (fun _ => true) (fun c => c) (fun _ => false) true)
        (Photo.mk ("/s/a.xyz".toList) [] ("a.xyz".toList) 7 0 2024 5 false false
          (fun _ _ => 3))
        false false ("/d/a.xyz".toList)
        (St.mk [] (Report.mk 0 0 0 0 0) [] [])).2.report
      = exportedCounter false false (Report.mk 0 0 0 0 0) + 1 :=
  C8_failure_entry_implies_export_counted _ _ false false _ _ (by decide)

/-! ### C6 -/

/-- C6: when the target path does not exist at the start of the call, the
reconciler invokes the export primitive exactly once at that path, and
duplicates-skipped is not incremented. -/
theorem C6_fresh_target_exports_once (env : Env) (photo : Photo) (e l : Bool)
    (path : Path) (st : St) (h : lookupFS st.fs path = none) :
    ((export_photo_variant env photo e l path st).2.events).filter isExportEvent
      = st.events.filter isExportEvent
        ++ [Event.exportCall (dirname path) (basename path) e l] ∧
    (export_photo_variant env photo e l path st).2.report.duplicates_skipped
      = st.report.duplicates_skipped := by
  unfold export_photo_variant
  simp only [h, Option.isSome_none, Bool.false_eq_true, if_false]
  constructor
  · rw [sync_once_events_filter]
    simp [isExportEvent]
  · simp [sync_once_report, bump_skipped]

/-- Witness for C6 at a concrete fresh-target state. -/
theorem C6_witness :
    (((export_photo_variant (Env.mk (fun _ => true) (fun c => c) (fun _ => true) true)
        (Photo.mk ("/s/a.jpg".toList) [] ("a.jpg".toList) 7 0 2024 5 false false
          (fun _ _ => 3))
        false false ("/d/a.jpg".toList)
        (St.mk [] (Report.mk 0 0 0 0 0) [] [])).2.events).filter isExportEvent
      = [Event.exportCall ("/d".toList) ("a.jpg".toList) false false]) ∧
    (export_photo_variant (Env.mk (fun _ => true) (fun c => c) (fun _ => true) true)
        (Photo.mk ("/s/a.jpg".toList) [] ("a.jpg".toList) 7 0 2024 5 false false
          (fun _ _ => 3))
        false false ("/d/a.jpg".toList)
        (St.mk [] (Report.mk 0 0 0 0 0) [] [])).2.report.duplicates_skipped = 0 := by
  have h := C6_fresh_target_exports_once
    (Env.mk (fun _ => true) (fun c => c) (fun _ => true) true)
    (Photo.mk ("/s/a.jpg".toList) [] ("a.jpg".toList) 7 0 2024 5 false false
      (fun _ _ => 3))
    false false ("/d/a.jpg".toList)
    (St.mk [] (Report.mk 0 0 0 0 0) [] []) (by decide)
  refine ⟨?_, h.2⟩
  rw [h.1]
  decide

/-! ### C7 -/

/-- C7: for two paths whose extensions are both in the supported image
format set, any decode or processing failure during perceptual comparison
makes the comparator return exact content-hash equality instead of
propagating the error. -/
theorem C7_decode_error_falls_back (env : Env) (fs : FS) (pp ep : Path)
    (c1 c2 : Nat)
    (hpe : toLowerL (splitextFull pp).2 ∈ SUPPORTED_IMAGE_FORMATS)
    (hee : toLowerL (splitextFull ep).2 ∈ SUPPORTED_IMAGE_FORMATS)
    (h1 : lookupFS fs pp = some c1) (h2 : lookupFS fs ep = some c2)
    (hfail : env.imgOk c1 = false ∨ env.imgOk c2 = false) :
    file_hashes_match env fs pp ep = (file_hash fs pp == file_hash fs ep) := by
  unfold file_hashes_match
  have hin : ¬ (toLowerL (splitextFull pp).2 ∉ SUPPORTED_IMAGE_FORMATS ∨
      toLowerL (splitextFull ep).2 ∉ SUPPORTED_IMAGE_FORMATS) := by
    push_neg
    exact ⟨hpe, hee⟩
  rw [if_neg hin, h1, h2]
  rcases hfail with hf | hf <;> simp [hf]

/-- Witness for C7 at two concrete supported-format files whose decoding
fails. -/
theorem C7_witness :
    (Env.mk (fun _ => false) (fun c => c) (fun _ => true) true).imgOk 1 = false ∧
    file_hashes_match (Env.mk (fun _ => false) (fun c => c) (fun _ => true) true)
        [(("/s/a.jpg".toList), 1), (("/d/b.jpg".toList), 2)]
        ("/s/a.jpg".toList) ("/d/b.jpg".toList)
      = (file_hash [(("/s/a.jpg".toList), 1), (("/d/b.jpg".toList), 2)] ("/s/a.jpg".toList)
          == file_hash [(("/s/a.jpg".toList), 1), (("/d/b.jpg".toList), 2)] ("/d/b.jpg".toList)) :=
  ⟨rfl,
    C7_decode_error_falls_back _ _ _ _ 1 2 (by decide) (by decide) (by decide) (by decide)
      (Or.inl rfl)⟩

/-! ### C1 -/

/-- C1: evaluating the reconciler at the unresolved-mismatch state — the
target exists with mismatching bytes and the collision-suffixed sibling
pre-existed with bytes that also mismatch.  As the spec says, no export call
is made, but contrary to the spec the variant's exported counter is
incremented (the fall-through after the log statement reaches the report
update), and the call returns the not-a-duplicate result. -/
theorem C1_sibling_mismatch_still_counts_exported :
    (((export_photo_variant (Env.mk (fun _ => true) (fun c => c) (fun _ => true) true)
        (Photo.mk ("/s/src.xyz".toList) [] ("a.xyz".toList) 7 0 2024 5 false false
          (fun _ _ => 10))
        false false ("/d/a.xyz".toList)
        (St.mk [(("/d/a.xyz".toList), 1), (("/d/a (1).xyz".toList), 2),
            (("/s/src.xyz".toList), 10)]
          (Report.mk 0 0 0 0 0) [] [])).2.events).filter isExportEvent = []) ∧
    (export_photo_variant (Env.mk (fun _ => true) (fun c => c) (fun _ => true) true)
        (Photo.mk ("/s/src.xyz".toList) [] ("a.xyz".toList) 7 0 2024 5 false false
          (fun _ _ => 10))
        false false ("/d/a.xyz".toList)
        (St.mk [(("/d/a.xyz".toList), 1), (("/d/a (1).xyz".toList), 2),
            (("/s/src.xyz".toList), 10)]
          (Report.mk 0 0 0 0 0) [] [])).2.report.originals_exported = 1 ∧
    (export_photo_variant (Env.mk (fun _ => true) (fun c => c) (fun _ => true) true)
        (Photo.mk ("/s/src.xyz".toList) [] ("a.xyz".toList) 7 0 2024 5 false false
          (fun _ _ => 10))
        false false ("/d/a.xyz".toList)
        (St.mk [(("/d/a.xyz".toList), 1), (("/d/a (1).xyz".toList), 2),
            (("/s/src.xyz".toList), 10)]
          (Report.mk 0 0 0 0 0) [] [])).2.report.duplicates_skipped = 0 := by
  decide

/-! ### C3 -/

theorem pyReplaceFuel_dot (rep : List Char) :
    ∀ (fuel : Nat) (s : List Char), s.length ≤ fuel →
      pyReplaceFuel ['.'] rep fuel s
        = s.flatMap (fun c => if c = '.' then rep else [c]) := by
  intro fuel
  induction fuel with
  | zero =>
    intro s hs
    have : s = [] := List.eq_nil_of_length_eq_zero (Nat.le_zero.mp hs)
    subst this
    rfl
  | succ n ih =>
    intro s hs
    cases s with
    | nil => rfl
    | cons c rest =>
      simp only [pyReplaceFuel]
      by_cases hc : c = '.'
      · subst hc
        have hpre : (['.'] : List Char).isPrefixOf ('.' :: rest) = true := by
          simp [List.isPrefixOf]
        simp only [hpre, ne_eq, List.cons_ne_nil, not_false_eq_true, true_and, if_true]
        rw [show (('.' :: rest).drop ['.'].length) = rest from rfl]
        rw [ih rest (by simpa using hs)]
        simp
      · have hpre : (['.'] : List Char).isPrefixOf (c :: rest) = false := by
          simp only [List.isPrefixOf, Bool.and_eq_false_iff]
          left
          simpa using (Ne.symm hc)
        simp only [hpre, Bool.false_eq_true, and_false, if_false]
        rw [ih rest (by simpa using hs)]
        simp [hc]

/-- C3 counterexample: for a basename with more than one dot the code
inserts ` (1)` at every dot, not only before the final extension. -/
theorem C3_counterexample_multiple_dots :
    duplicate_path ("/d/a.b.jpg".toList) = "/d/a (1).b (1).jpg".toList ∧
    duplicate_path ("/d/a.b.jpg".toList) ≠ "/d/a.b (1).jpg".toList := by
  decide

/-- C3 amended: the collision-suffixed sibling is obtained by replacing
every dot of the basename with ` (1).` (equivalently, inserting ` (1)`
before every dot), which coincides with insertion before the final extension
exactly when the basename contains a single dot; the spec's example
`IMG_1234.jpg → IMG_1234 (1).jpg` is recovered. -/
theorem C3_amended_suffix_at_every_dot (path : Path) :
    duplicate_path path
      = joinPath (dirname path)
          ((basename path).flatMap
            (fun c => if c = '.' then " (1).".toList else [c])) ∧
    duplicate_path ("/d/IMG_1234.jpg".toList) = "/d/IMG_1234 (1).jpg".toList := by
  constructor
  · unfold duplicate_path pyReplace
    rw [show (".".toList : List Char) = ['.'] from rfl]
    rw [pyReplaceFuel_dot (" (1).".toList) (basename path).length (basename path) le_rfl]
  · decide

/-! ### C4 -/

theorem tsRetryAux_first (visible : Nat → Bool) (k : Nat) :
    ∀ (n i : Nat), i ≤ k → k < i + n → visible k = true →
      (∀ j, j < k → visible j = false) →
      tsRetryAux visible n i = some (k + 1) := by
  intro n
  induction n with
  | zero => intro i h1 h2 _ _; omega
  | succ n ih =>
    intro i h1 h2 hv hmin
    simp only [tsRetryAux]
    by_cases hi : i = k
    · subst hi
      simp [hv]
    · have hlt : i < k := lt_of_le_of_ne h1 hi
      rw [hmin i hlt]
      simp only [Bool.false_eq_true, if_false]
      exact ih (i + 1) (by omega) (by omega) hv hmin

theorem tsRetryAux_none (visible : Nat → Bool) :
    ∀ (n i : Nat), (∀ j, i ≤ j → j < i + n → visible j = false) →
      tsRetryAux visible n i = none := by
  intro n
  induction n with
  | zero => intro i _; rfl
  | succ n ih =>
    intro i h
    simp only [tsRetryAux]
    rw [h i le_rfl (by omega)]
    simp only [Bool.false_eq_true, if_false]
    exact ih (i + 1) (fun j hj1 hj2 => h j (by omega) (by omega))

/-- C4 amended: the bounded 5-poll / 1-second-pause timestamp
synchronization applies only to the exists-with-mismatch branch of the
reconciler: there, if the file is visible on attempt `k+1 ≤ 5` (zero-based
`k`) the modification time is set after exactly `k+1` existence checks, and
if it is absent through all 5 attempts a FailedTimestampEntry with the path
and intended capture date is appended.  In the branch where the target path
did not exist beforehand, the code makes exactly one immediate attempt with
no polling loop: if the file is not visible on that single attempt a
FailedTimestampEntry is appended at once. -/
theorem C4_amended_retry_law (env : Env) (photo : Photo) (path : Path)
    (st : St) (e l : Bool) (k : Nat) :
    (k < 5 → env.visible k = true → (∀ j, j < k → env.visible j = false) →
      env.utimeOk = true →
      sync_timestamp_retry env photo path st
        = { st with events := st.events ++ [Event.setTime path photo.date (k + 1)] }) ∧
    ((∀ j, j < 5 → env.visible j = false) →
      sync_timestamp_retry env photo path st
        = { st with failed_files := st.failed_files ++ [⟨path, photo.date⟩] }) ∧
    (lookupFS st.fs path = none → env.visible 0 = false →
      (export_photo_variant env photo e l path st).2.failed_files
        = st.failed_files ++ [⟨path, photo.date⟩]) := by
  refine ⟨?_, ?_, ?_⟩
  · intro h5 hv hmin hok
    unfold sync_timestamp_retry tsRetry
    rw [tsRetryAux_first env.visible k 5 0 (Nat.zero_le k) (by omega) hv hmin]
    simp [hok]
  · intro habs
    unfold sync_timestamp_retry tsRetry
    rw [tsRetryAux_none env.visible 5 0 (fun j _ hj => habs j (by omega))]
  · intro hfs hv
    unfold export_photo_variant
    simp only [hfs, Option.isSome_none, Bool.false_eq_true, if_false]
    simp [sync_timestamp_once, hv, bumpExported]

/-- Witness for C4's amended retry law: visibility on the third attempt. -/
theorem C4_witness :
    ((2 : Nat) < 5 ∧ (fun i => decide (i = 2)) 2 = true) ∧
    sync_timestamp_retry
        (Env.mk (fun _ => true) (fun c => c) (fun i => decide (i = 2)) true)
        (Photo.mk ("/s/a.jpg".toList) [] ("a.jpg".toList) 7 0 2024 5 false false
          (fun _ _ => 3))
        ("/d/a.jpg".toList)
        (St.mk [] (Report.mk 0 0 0 0 0) [] [])
      = St.mk [] (Report.mk 0 0 0 0 0) []
          [Event.setTime ("/d/a.jpg".toList) 7 3] :=
  ⟨⟨by decide, by decide⟩,
    (C4_amended_retry_law
        (Env.mk (fun _ => true) (fun c => c) (fun i => decide (i = 2)) true)
        (Photo.mk ("/s/a.jpg".toList) [] ("a.jpg".toList) 7 0 2024 5 false false
          (fun _ _ => 3))
        ("/d/a.jpg".toList)
        (St.mk [] (Report.mk 0 0 0 0 0) [] []) false false 2).1
      (by decide) (by decide) (by decide) rfl⟩

/-- C4 counterexample: the target did not exist, the file becomes visible on
the second attempt — under the claimed uniform 5-poll protocol the sync
would succeed after 2 checks (`tsRetry` returns 2), but the fresh-export
branch polls only once and records a failure entry. -/
theorem C4_counterexample_no_retry_in_fresh_branch :
    tsRetry (fun i => decide (i = 1)) = some 2 ∧
    (export_photo_variant
        (Env.mk (fun _ => true) (fun c => c) (fun i => decide (i = 1)) true)
        (Photo.mk ("/s/a.jpg".toList) [] ("a.jpg".toList) 7 0 2024 5 false false
          (fun _ _ => 3))
        false false ("/d/a.jpg".toList)
        (St.mk [] (Report.mk 0 0 0 0 0) [] [])).2.failed_files
      = [⟨"/d/a.jpg".toList, 7⟩] := by
  decide

/-! ### C10 -/

/-- C10: the driver processes exactly the photos whose capture date is on or
after today minus 35 days, in library enumeration order; earlier photos
contribute nothing to the run. -/
theorem C10_date_window (env : Env) (today : Int) (photos : List Photo) (st : St) :
    START_DATE today = today - 35 ∧
    export_photos env today photos st
      = export_photos env today
          (photos.filter (fun p => decide (START_DATE today ≤ p.dateDay))) st ∧
    (∀ p, p ∈ photos.filter (fun p => decide (START_DATE today ≤ p.dateDay))
        ↔ p ∈ photos ∧ START_DATE today ≤ p.dateDay) ∧
    (photos.filter (fun p => decide (START_DATE today ≤ p.dateDay))).Sublist photos := by
  refine ⟨rfl, ?_, ?_, List.filter_sublist _⟩
  · unfold export_photos
    simp [List.filter_filter]
  · intro p
    simp [List.mem_filter]

/-! ### C5 -/

/-- The filename's extension (case-insensitive) is `.jpg` or `.heic`. -/
def extOKSpec (f : Path) : Prop :=
  List.isSuffixOf (".jpg".toList) (toLowerL f) = true ∨
    List.isSuffixOf (".heic".toList) (toLowerL f) = true

instance extOKSpec_decidable (f : Path) : Decidable (extOKSpec f) := by
  unfold extOKSpec
  exact inferInstance

/-- A string of the shape `IMG_` followed by exactly four digits. -/
def IMGtoken (m : Path) : Prop :=
  ∃ a b c d, isDigitCh a = true ∧ isDigitCh b = true ∧ isDigitCh c = true ∧
    isDigitCh d = true ∧ m = 'I' :: 'M' :: 'G' :: '_' :: a :: b :: c :: d :: []

/-- A substring `IMG_` + 4 digits occurs somewhere in `s`. -/
def hasIMGsub (s : Path) : Prop :=
  ∃ pre m suf, IMGtoken m ∧ s = pre ++ m ++ suf

theorem headIMG_some (s m : Path) (h : headIMG s = some m) :
    IMGtoken m ∧ ∃ suf, s = m ++ suf := by
  unfold headIMG at h
  split at h
  next a b c d tail =>
    split at h
    next hd =>
      rw [Bool.and_eq_true, Bool.and_eq_true, Bool.and_eq_true] at hd
      injection h with h
      subst h
      exact ⟨⟨a, b, c, d, hd.1.1.1, hd.1.1.2, hd.1.2, hd.2, rfl⟩, ⟨tail, rfl⟩⟩
    next => exact absurd h (by simp)
  next => exact absurd h (by simp)

theorem headIMG_none (s : Path) (h : headIMG s = none) (m suf : Path)
    (hm : IMGtoken m) (hs : s = m ++ suf) : False := by
  obtain ⟨a, b, c, d, ha, hb, hc, hd, rfl⟩ := hm
  subst hs
  simp [headIMG, ha, hb, hc, hd] at h

theorem searchIMG_some : ∀ (s m : Path), searchIMG s = some m →
    IMGtoken m ∧ ∃ pre suf, s = pre ++ m ++ suf := by
  intro s
  induction s with
  | nil => intro m h; simp [searchIMG] at h
  | cons c rest ih =>
    intro m h
    rw [searchIMG] at h
    cases hh : headIMG (c :: rest) with
    | some m0 =>
      rw [hh] at h
      injection h with h
      subst h
      obtain ⟨tok, suf, hsuf⟩ := headIMG_some _ _ hh
      exact ⟨tok, [], suf, by simpa using hsuf⟩
    | none =>
      rw [hh] at h
      obtain ⟨tok, pre, suf, heq⟩ := ih m h
      exact ⟨tok, c :: pre, suf, by simp [heq]⟩

theorem searchIMG_none : ∀ (s : Path), searchIMG s = none → ¬ hasIMGsub s := by
  intro s
  induction s with
  | nil =>
    intro _ hsub
    obtain ⟨pre, m, suf, ⟨a, b, c, d, _, _, _, _, hm⟩, heq⟩ := hsub
    subst hm
    exact absurd heq.symm (by simp)
  | cons ch rest ih =>
    intro h hsub
    rw [searchIMG] at h
    cases hh : headIMG (ch :: rest) with
    | some m0 => rw [hh] at h; exact absurd h (by simp)
    | none =>
      rw [hh] at h
      obtain ⟨pre, m, suf, tok, heq⟩ := hsub
      cases pre with
      | nil => exact headIMG_none _ hh m suf tok (by simpa using heq)
      | cons p pre2 =>
        rw [List.cons_append] at heq
        injection heq with h1 h2
        exact ih h ⟨pre2, m, suf, tok, h2⟩

/-- C5: filename canonicalization for the Original variant — non-jpg/heic
extensions pass through unchanged; a filename already matching the canonical
`IMG_` + 4 digits + `.jpg`/`.heic` (case-insensitive) pattern is unchanged;
otherwise a contained `IMG_` + 4 digits substring replaces the whole
filename (keeping the original extension); otherwise the filename is
unchanged.  The three spec examples are also evaluated. -/
theorem C5_canonicalization (f : Path) :
    (¬ extOKSpec f → extract_img_pattern f = f) ∧
    (matchesCanonical f = true → extract_img_pattern f = f) ∧
    (extOKSpec f → matchesCanonical f = false → hasIMGsub f →
      ∃ m pre suf, IMGtoken m ∧ f = pre ++ m ++ suf ∧
        extract_img_pattern f = m ++ (splitextFull f).2) ∧
    (extOKSpec f → matchesCanonical f = false → ¬ hasIMGsub f →
      extract_img_pattern f = f) ∧
    extract_img_pattern ("2024_IMG_5678_extra.jpg".toList) = "IMG_5678.jpg".toList ∧
    extract_img_pattern ("IMG_1234.jpg".toList) = "IMG_1234.jpg".toList ∧
    extract_img_pattern ("vacation.png".toList) = "vacation.png".toList := by
  refine ⟨?_, ?_, ?_, ?_, by decide, by decide, by decide⟩
  · intro hext
    unfold extOKSpec at hext
    push_neg at hext
    unfold extract_img_pattern
    rw [Bool.eq_false_iff.mpr hext.1, Bool.eq_false_iff.mpr hext.2]
    rfl
  · intro hcanon
    unfold extract_img_pattern
    by_cases hext : (List.isSuffixOf (".jpg".toList) (toLowerL f) ||
        List.isSuffixOf (".heic".toList) (toLowerL f))
    · rw [hext, hcanon]
      rfl
    · rw [Bool.eq_false_iff.mpr hext]
      rfl
  · intro hext hcanon hsub
    unfold extract_img_pattern
    have hbool : (List.isSuffixOf (".jpg".toList) (toLowerL f) ||
        List.isSuffixOf (".heic".toList) (toLowerL f)) = true := by
      rw [Bool.or_eq_true]
      exact hext
    rw [hbool, hcanon]
    cases hs : searchIMG f with
    | none => exact absurd hsub (searchIMG_none f hs)
    | some m =>
      obtain ⟨tok, pre, suf, heq⟩ := searchIMG_some f m hs
      exact ⟨m, pre, suf, tok, heq, rfl⟩
  · intro hext hcanon hsub
    unfold extract_img_pattern
    have hbool : (List.isSuffixOf (".jpg".toList) (toLowerL f) ||
        List.isSuffixOf (".heic".toList) (toLowerL f)) = true := by
      rw [Bool.or_eq_true]
      exact hext
    rw [hbool, hcanon]
    cases hs : searchIMG f with
    | none => rfl
    | some m =>
      obtain ⟨tok, pre, suf, heq⟩ := searchIMG_some f m hs
      exact absurd ⟨pre, m, suf, tok, heq⟩ hsub

/-- Witness for C5 at the non-jpg/heic passthrough example. -/
theorem C5_witness :
    (¬ extOKSpec ("vacation.png".toList)) ∧
    extract_img_pattern ("vacation.png".toList) = "vacation.png".toList :=
  ⟨by decide, (C5_canonicalization ("vacation.png".toList)).1 (by decide)⟩

/-! ### Path roundtrip lemmas -/

theorem takeWhile_append_stop (p : Char → Bool) (l : List Char) (x : Char)
    (t : List Char) (hl : ∀ c ∈ l, p c = true) (hx : p x = false) :
    (l ++ x :: t).takeWhile p = l := by
  induction l with
  | nil => simp [List.takeWhile_cons, hx]
  | cons a l ih =>
    have ha : p a = true := hl a (by simp)
    simp [List.takeWhile_cons, ha, ih (fun c hc => hl c (by simp [hc]))]

theorem joinPath_eq (a b : Path) (ha : a ≠ []) (hal : a.getLast? ≠ some '/')
    (hbh : b.head? ≠ some '/') :
    joinPath a b = a ++ '/' :: b := by
  unfold joinPath
  rw [if_neg hbh, if_neg ?_]
  rintro (h | h)
  · exact ha h
  · exact hal h

theorem basename_join (a b : Path) (ha : a ≠ []) (hal : a.getLast? ≠ some '/')
    (hbh : b.head? ≠ some '/') (hb : '/' ∉ b) :
    basename (joinPath a b) = b := by
  rw [joinPath_eq a b ha hal hbh]
  unfold basename
  have hrev : (a ++ '/' :: b).reverse = b.reverse ++ '/' :: a.reverse := by
    simp
  rw [hrev, takeWhile_append_stop _ b.reverse '/' a.reverse ?_ (by simp)]
  · simp
  · intro c hc
    simp only [List.mem_reverse] at hc
    simp only [decide_eq_true_eq]
    intro hcc
    exact hb (hcc ▸ hc)

theorem dirname_join (a b : Path) (ha : a ≠ []) (hal : a.getLast? ≠ some '/')
    (hbh : b.head? ≠ some '/') (hb : '/' ∉ b) :
    dirname (joinPath a b) = a := by
  have hbn : basename (joinPath a b) = b := basename_join a b ha hal hbh hb
  rw [joinPath_eq a b ha hal hbh] at hbn ⊢
  unfold dirname
  rw [hbn]
  have hlen : (a ++ '/' :: b).length - b.length = a.length + 1 := by
    simp only [List.length_append, List.length_cons]
    omega
  rw [hlen]
  have hsplit : a ++ '/' :: b = (a ++ ['/']) ++ b := by simp
  have htake : (a ++ '/' :: b).take (a.length + 1) = a ++ ['/'] := by
    rw [hsplit]
    have h2 : a.length + 1 = (a ++ ['/']).length := by simp
    rw [h2, List.take_left]
  rw [htake]
  obtain ⟨l, c, rfl⟩ := (List.eq_nil_or_concat a).resolve_left ha
  simp only [List.concat_eq_append] at hal ⊢
  have hc : c ≠ '/' := by
    intro hcc
    exact hal (by simp [hcc])
  rw [if_neg ?_]
  · have hrev : ((l ++ [c]) ++ ['/']).reverse = '/' :: c :: l.reverse := by
      simp
    rw [hrev]
    simp [List.dropWhile_cons, hc]
  · intro hall
    have hx := List.all_eq_true.mp hall c (by simp)
    simp only [decide_eq_true_eq] at hx
    exact hc hx

/-! ### Reconciler branch lemmas -/

/-- Two files whose lookups return the same bytes always compare equal,
whatever the environment: the perceptual hash of equal bytes is equal, and
the content digests are equal. -/
theorem file_hashes_match_refl (env : Env) (fs : FS) (a b : Path) (c : Nat)
    (ha : lookupFS fs a = some c) (hb : lookupFS fs b = some c) :
    file_hashes_match env fs a b = true := by
  unfold file_hashes_match
  simp [file_hash, ha, hb]

/-- The fresh-target branch of the reconciler, for a wellformed joined path:
no duplicate reported, the source bytes inserted at the target, and the
variant's exported counter bumped. -/
theorem epv_fresh (env : Env) (photo : Photo) (e l : Bool) (d fn path : Path)
    (st : St) (hd : d ≠ []) (hdl : d.getLast? ≠ some '/')
    (hfh : fn.head? ≠ some '/') (hfs : '/' ∉ fn)
    (hpath : path = joinPath d fn)
    (h : lookupFS st.fs path = none) :
    (export_photo_variant env photo e l path st).1 = false ∧
    (export_photo_variant env photo e l path st).2.fs
      = insertFS st.fs path (photo.srcBytes e l) ∧
    (export_photo_variant env photo e l path st).2.report
      = bumpExported e l st.report := by
  unfold export_photo_variant
  simp only [h, Option.isSome_none, Bool.false_eq_true, if_false]
  refine ⟨by simp, ?_, ?_⟩
  · rw [sync_once_fs]
    subst hpath
    rw [dirname_join d fn hd hdl hfh hfs, basename_join d fn hd hdl hfh hfs]
    unfold exportPrimitive
    simp only [h, Option.isSome_none, Bool.false_eq_true, if_false]
  · rw [sync_once_report]

/-- The duplicate-skip branch of the reconciler: target present with the
same bytes as the source file. -/
theorem epv_dup (env : Env) (photo : Photo) (e l : Bool) (path : Path)
    (st : St) (c : Nat)
    (hp : lookupFS st.fs path = some c)
    (hs : lookupFS st.fs (if e = true then photo.path_edited else photo.path) = some c) :
    export_photo_variant env photo e l path st
      = (true, { st with report :=
          { st.report with duplicates_skipped := st.report.duplicates_skipped + 1 } }) := by
  unfold export_photo_variant
  simp only [hp, Option.isSome_some, if_true]
  rw [file_hashes_match_refl env st.fs
    (if e = true then photo.path_edited else photo.path) path c hs hp]
  rfl

theorem lookup_insert_self (fs : FS) (k : Path) (v : Nat) :
    lookupFS (insertFS fs k v) k = some v := by
  rw [lookup_insert, if_pos rfl]

theorem lookup_insert_ne (fs : FS) (k q : Path) (v : Nat) (h : k ≠ q) :
    lookupFS (insertFS fs k v) q = lookupFS fs q := by
  rw [lookup_insert, if_neg h]

/-! ### Pipeline-level lemmas -/

/-- The destination paths one iteration of the driver may touch. -/
def targetsOf (p : Photo) : List Path :=
  origTarget p :: ((if p.hasadjustments then [editedTarget p] else []) ++
    (if p.live_photo then [liveTarget p] else []))

/-- A destination filename that keeps `joinPath`/`dirname`/`basename`
wellbehaved: not absolute, and containing no separator. -/
def wfName (fn : Path) : Prop := fn.head? ≠ some '/' ∧ '/' ∉ fn

/-- Wellformedness of the names a photo's variants are derived from. -/
def WFphoto (p : Photo) : Prop :=
  ymDir p ≠ [] ∧ (ymDir p).getLast? ≠ some '/' ∧
    wfName (origFilename p) ∧ wfName (editedFilename p) ∧
    wfName (get_live_photo_name (origFilename p))

instance wfName_decidable (fn : Path) : Decidable (wfName fn) := by
  unfold wfName
  exact inferInstance

instance WFphoto_decidable (p : Photo) : Decidable (WFphoto p) := by
  unfold WFphoto
  exact inferInstance

/-- One driver iteration on a photo none of whose targets exist yet: the
filesystem is changed only at that photo's targets, and afterwards the
original target holds the original-variant source bytes. -/
theorem process_fresh (env : Env) (st : St) (photo : Photo)
    (hwf : WFphoto photo) (hnd : (targetsOf photo).Nodup)
    (hfresh : ∀ t ∈ targetsOf photo, lookupFS st.fs t = none) :
    (∀ q, q ∉ targetsOf photo →
      lookupFS (process_photo env st photo).fs q = lookupFS st.fs q) ∧
    lookupFS (process_photo env st photo).fs (origTarget photo)
      = some (photo.srcBytes false false) := by
  obtain ⟨hd1, hd2, ⟨hof1, hof2⟩, ⟨hef1, hef2⟩, ⟨hlf1, hlf2⟩⟩ := hwf
  have h0 : lookupFS st.fs (origTarget photo) = none :=
    hfresh _ (by simp [targetsOf])
  obtain ⟨g1, g2, _⟩ := epv_fresh env photo false false (ymDir photo)
    (origFilename photo) (origTarget photo) st hd1 hd2 hof1 hof2 rfl h0
  unfold targetsOf at hnd
  rw [List.nodup_cons] at hnd
  obtain ⟨ho, htail⟩ := hnd
  unfold process_photo
  simp only [g1, Bool.false_eq_true, if_false]
  by_cases hadj : photo.hasadjustments
  · have hoe : origTarget photo ≠ editedTarget photo := by
      intro h
      exact ho (by rw [h]; simp [hadj])
    have he0 : lookupFS
        (export_photo_variant env photo false false (origTarget photo) st).2.fs
        (editedTarget photo) = none := by
      rw [g2, lookup_insert_ne _ _ _ _ hoe]
      exact hfresh _ (by simp [targetsOf, hadj])
    obtain ⟨q1, q2, _⟩ := epv_fresh env photo true false (ymDir photo)
      (editedFilename photo) (editedTarget photo) _ hd1 hd2 hef1 hef2 rfl he0
    simp only [hadj, if_true]
    by_cases hlive : photo.live_photo
    · have hol : origTarget photo ≠ liveTarget photo := by
        intro h
        exact ho (by rw [h]; simp [hlive])
      have hel : editedTarget photo ≠ liveTarget photo := by
        simpa [hadj, hlive, List.nodup_cons] using htail
      have hl0 : lookupFS
          (export_photo_variant env photo true false (editedTarget photo)
            (export_photo_variant env photo false false (origTarget photo) st).2).2.fs
          (liveTarget photo) = none := by
        rw [q2, lookup_insert_ne _ _ _ _ hel]
        rw [g2, lookup_insert_ne _ _ _ _ hol]
        exact hfresh _ (by simp [targetsOf, hlive])
      obtain ⟨r1, r2, _⟩ := epv_fresh env photo false true (ymDir photo)
        (get_live_photo_name (origFilename photo)) (liveTarget photo) _
        hd1 hd2 hlf1 hlf2 rfl hl0
      simp only [hlive, if_true]
      constructor
      · intro q hq
        have hq1 : origTarget photo ≠ q := by
          intro h
          exact hq (by rw [← h]; simp [targetsOf])
        have hq2 : editedTarget photo ≠ q := by
          intro h
          exact hq (by rw [← h]; simp [targetsOf, hadj])
        have hq3 : liveTarget photo ≠ q := by
          intro h
          exact hq (by rw [← h]; simp [targetsOf, hlive])
        rw [r2, lookup_insert_ne _ _ _ _ hq3]
        rw [q2, lookup_insert_ne _ _ _ _ hq2]
        rw [g2, lookup_insert_ne _ _ _ _ hq1]
      · rw [r2, lookup_insert_ne _ _ _ _ (Ne.symm hol)]
        rw [q2, lookup_insert_ne _ _ _ _ (Ne.symm hoe)]
        rw [g2, lookup_insert_self]
    · simp only [hlive, Bool.false_eq_true, if_false]
      constructor
      · intro q hq
        have hq1 : origTarget photo ≠ q := by
          intro h
          exact hq (by rw [← h]; simp [targetsOf])
        have hq2 : editedTarget photo ≠ q := by
          intro h
          exact hq (by rw [← h]; simp [targetsOf, hadj])
        rw [q2, lookup_insert_ne _ _ _ _ hq2]
        rw [g2, lookup_insert_ne _ _ _ _ hq1]
      · rw [q2, lookup_insert_ne _ _ _ _ (Ne.symm hoe)]
        rw [g2, lookup_insert_self]
  · simp only [hadj, Bool.false_eq_true, if_false]
    by_cases hlive : photo.live_photo
    · have hol : origTarget photo ≠ liveTarget photo := by
        intro h
        exact ho (by rw [h]; simp [hlive])
      have hl0 : lookupFS
          (export_photo_variant env photo false false (origTarget photo) st).2.fs
          (liveTarget photo) = none := by
        rw [g2, lookup_insert_ne _ _ _ _ hol]
        exact hfresh _ (by simp [targetsOf, hlive])
      obtain ⟨r1, r2, _⟩ := epv_fresh env photo false true (ymDir photo)
        (get_live_photo_name (origFilename photo)) (liveTarget photo) _
        hd1 hd2 hlf1 hlf2 rfl hl0
      simp only [hlive, if_true]
      constructor
      · intro q hq
        have hq1 : origTarget photo ≠ q := by
          intro h
          exact hq (by rw [← h]; simp [targetsOf])
        have hq3 : liveTarget photo ≠ q := by
          intro h
          exact hq (by rw [← h]; simp [targetsOf, hlive])
        rw [r2, lookup_insert_ne _ _ _ _ hq3]
        rw [g2, lookup_insert_ne _ _ _ _ hq1]
      · rw [r2, lookup_insert_ne _ _ _ _ (Ne.symm hol)]
        rw [g2, lookup_insert_self]
    · simp only [hlive, Bool.false_eq_true, if_false]
      constructor
      · intro q hq
        have hq1 : origTarget photo ≠ q := by
          intro h
          exact hq (by rw [← h]; simp [targetsOf])
        rw [g2, lookup_insert_ne _ _ _ _ hq1]
      · rw [g2, lookup_insert_self]

/-- First run over a list of photos, all of whose targets are fresh and
pairwise disjoint: only target paths change, and every original target ends
up holding that photo's original source bytes. -/
theorem run1_fold (env : Env) :
    ∀ (l : List Photo) (st : St),
      (∀ p ∈ l, WFphoto p ∧ (targetsOf p).Nodup) →
      List.Pairwise (fun p q => ∀ t ∈ targetsOf p, t ∉ targetsOf q) l →
      (∀ p ∈ l, ∀ t ∈ targetsOf p, lookupFS st.fs t = none) →
      (∀ q, (∀ p ∈ l, q ∉ targetsOf p) →
        lookupFS (List.foldl (process_photo env) st l).fs q = lookupFS st.fs q) ∧
      (∀ p ∈ l, lookupFS (List.foldl (process_photo env) st l).fs (origTarget p)
        = some (p.srcBytes false false)) := by
  intro l
  induction l with
  | nil =>
    intro st _ _ _
    exact ⟨fun q _ => rfl, fun p hp => absurd hp (by simp)⟩
  | cons a rest ih =>
    intro st hwf hpw hfresh
    rw [List.foldl_cons]
    obtain ⟨pa1, pa2⟩ := process_fresh env st a (hwf a (by simp)).1
      (hwf a (by simp)).2 (fun t ht => hfresh a (by simp) t ht)
    have hpw' := List.pairwise_cons.mp hpw
    obtain ⟨ihA, ihB⟩ := ih (process_photo env st a)
      (fun p hp => hwf p (by simp [hp]))
      hpw'.2
      (fun p hp t ht => by
        rw [pa1 t (fun hta => (hpw'.1 p hp t hta) ht)]
        exact hfresh p (by simp [hp]) t ht)
    refine ⟨?_, ?_⟩
    · intro q hq
      rw [ihA q (fun p hp => hq p (by simp [hp]))]
      exact pa1 q (hq a (by simp))
    · intro p hp
      rcases List.mem_cons.mp hp with rfl | hp2
      · rw [ihA (origTarget p)
          (fun r hr => hpw'.1 r hr (origTarget p) (by simp [targetsOf]))]
        exact pa2
      · exact ihB p hp2

/-- One driver iteration on a photo whose original target already holds the
same bytes as the photo's source file: a pure duplicate skip, gating off the
edited and live variants. -/
theorem process_dup (env : Env) (st : St) (photo : Photo) (c : Nat)
    (h1 : lookupFS st.fs (origTarget photo) = some c)
    (h2 : lookupFS st.fs photo.path = some c) :
    process_photo env st photo
      = { st with report :=
          { st.report with duplicates_skipped := st.report.duplicates_skipped + 1 } } := by
  unfold process_photo
  rw [epv_dup env photo false false (origTarget photo) st c h1 (by simpa using h2)]
  rfl

/-- Second run over photos each of which hits the duplicate-skip branch:
the filesystem is untouched, duplicates-skipped grows by the number of
photos, and no exported counter moves. -/
theorem run2_fold (env : Env) :
    ∀ (l : List Photo) (st : St),
      (∀ p ∈ l, ∃ c, lookupFS st.fs (origTarget p) = some c ∧
        lookupFS st.fs p.path = some c) →
      (List.foldl (process_photo env) st l).fs = st.fs ∧
      (List.foldl (process_photo env) st l).report.duplicates_skipped
        = st.report.duplicates_skipped + l.length ∧
      (List.foldl (process_photo env) st l).report.originals_exported
        = st.report.originals_exported ∧
      (List.foldl (process_photo env) st l).report.edits_exported
        = st.report.edits_exported ∧
      (List.foldl (process_photo env) st l).report.live_photos_exported
        = st.report.live_photos_exported := by
  intro l
  induction l with
  | nil =>
    intro st _
    exact ⟨rfl, by simp, rfl, rfl, rfl⟩
  | cons a rest ih =>
    intro st h
    rw [List.foldl_cons]
    obtain ⟨c, hc1, hc2⟩ := h a (by simp)
    rw [process_dup env st a c hc1 hc2]
    obtain ⟨i1, i2, i3, i4, i5⟩ := ih
      { st with report :=
        { st.report with duplicates_skipped := st.report.duplicates_skipped + 1 } }
      (fun p hp => by simpa using h p (by simp [hp]))
    refine ⟨i1, ?_, i3, i4, i5⟩
    rw [i2]
    simp only [List.length_cons]
    omega

/-! ### C2 -/

/-- C2 amended: with every processed photo's targets initially absent and
pairwise distinct, the source files present with the bytes the export writes
and disjoint from all targets, a second pipeline run increments
duplicates-skipped by exactly the number of processed photos (each photo's
Original is recognized as a duplicate, which gates off its Edited/Live
variants) — not by the number of variants the first run exported — and
increments none of the three exported counters. -/
theorem C2_amended_second_run_skips_per_photo (env1 env2 : Env) (today : Int)
    (photos : List Photo) (st0 : St)
    (hwf : ∀ p ∈ photos.filter (fun p => decide (START_DATE today ≤ p.dateDay)),
      WFphoto p ∧ (targetsOf p).Nodup)
    (hpw : List.Pairwise (fun p q => ∀ t ∈ targetsOf p, t ∉ targetsOf q)
      (photos.filter (fun p => decide (START_DATE today ≤ p.dateDay))))
    (hfresh : ∀ p ∈ photos.filter (fun p => decide (START_DATE today ≤ p.dateDay)),
      ∀ t ∈ targetsOf p, lookupFS st0.fs t = none)
    (hsrc : ∀ p ∈ photos.filter (fun p => decide (START_DATE today ≤ p.dateDay)),
      lookupFS st0.fs p.path = some (p.srcBytes false false))
    (hsrcdisj : ∀ p ∈ photos.filter (fun p => decide (START_DATE today ≤ p.dateDay)),
      ∀ q ∈ photos.filter (fun p => decide (START_DATE today ≤ p.dateDay)),
      p.path ∉ targetsOf q) :
    (export_photos env2 today photos
        (export_photos env1 today photos st0)).report.duplicates_skipped
      = (export_photos env1 today photos st0).report.duplicates_skipped
        + (photos.filter (fun p => decide (START_DATE today ≤ p.dateDay))).length ∧
    (export_photos env2 today photos
        (export_photos env1 today photos st0)).report.originals_exported
      = (export_photos env1 today photos st0).report.originals_exported ∧
    (export_photos env2 today photos
        (export_photos env1 today photos st0)).report.edits_exported
      = (export_photos env1 today photos st0).report.edits_exported ∧
    (export_photos env2 today photos
        (export_photos env1 today photos st0)).report.live_photos_exported
      = (export_photos env1 today photos st0).report.live_photos_exported := by
  unfold export_photos
  obtain ⟨r1A, r1B⟩ := run1_fold env1
    (photos.filter (fun p => decide (START_DATE today ≤ p.dateDay))) st0
    hwf hpw hfresh
  have h2 : ∀ p ∈ photos.filter (fun p => decide (START_DATE today ≤ p.dateDay)),
      ∃ c, lookupFS (List.foldl (process_photo env1) st0
          (photos.filter (fun p => decide (START_DATE today ≤ p.dateDay)))).fs
          (origTarget p) = some c ∧
        lookupFS (List.foldl (process_photo env1) st0
          (photos.filter (fun p => decide (START_DATE today ≤ p.dateDay)))).fs
          p.path = some c := by
    intro p hp
    refine ⟨p.srcBytes false false, r1B p hp, ?_⟩
    rw [r1A p.path (fun q hq => hsrcdisj p hp q hq)]
    exact hsrc p hp
  obtain ⟨s1, s2, s3, s4, s5⟩ := run2_fold env2
    (photos.filter (fun p => decide (START_DATE today ≤ p.dateDay)))
    (List.foldl (process_photo env1) st0
      (photos.filter (fun p => decide (START_DATE today ≤ p.dateDay)))) h2
  exact ⟨s2, s3, s4, s5⟩

/-- Environment with perfect decoding, visibility and utime. -/
def c2env : Env := Env.mk (fun _ => true) (fun c => c) (fun _ => true) true

/-- A photo with an edited variant, for the C2 counterexample. -/
def c2photoA : Photo :=
  Photo.mk ("/s/a.jpg".toList) ("/s/e.jpg".toList) ("a.jpg".toList) 7 100 2024 5
    true false (fun e _ => if e then 4 else 3)

def c2st0A : St :=
  St.mk [(("/s/a.jpg".toList), 3), (("/s/e.jpg".toList), 4)]
    (Report.mk 0 0 0 0 0) [] []

/-- A photo with no edited or live variant, for the C2 witness. -/
def c2photoB : Photo :=
  Photo.mk ("/s/a.jpg".toList) ("/s/e.jpg".toList) ("a.jpg".toList) 7 100 2024 5
    false false (fun _ _ => 3)

def c2st0B : St :=
  St.mk [(("/s/a.jpg".toList), 3)] (Report.mk 0 0 0 0 0) [] []

/-- C2 counterexample: one photo with adjustments.  The first run exports
two variants (original and edited); the second run increments
duplicates-skipped by 1 — the number of photos — not by 2, the number of
variants exported in the first run, because the Original's duplicate result
gates off the Edited variant. -/
theorem C2_counterexample_variants_vs_photos :
    (export_photos c2env 100 [c2photoA] c2st0A).report.originals_exported
        + (export_photos c2env 100 [c2photoA] c2st0A).report.edits_exported
        + (export_photos c2env 100 [c2photoA] c2st0A).report.live_photos_exported = 2 ∧
    (export_photos c2env 100 [c2photoA] c2st0A).report.duplicates_skipped = 0 ∧
    (export_photos c2env 100 [c2photoA]
        (export_photos c2env 100 [c2photoA] c2st0A)).report.duplicates_skipped = 1 ∧
    (export_photos c2env 100 [c2photoA]
        (export_photos c2env 100 [c2photoA] c2st0A)).report.originals_exported
        + (export_photos c2env 100 [c2photoA]
            (export_photos c2env 100 [c2photoA] c2st0A)).report.edits_exported
        + (export_photos c2env 100 [c2photoA]
            (export_photos c2env 100 [c2photoA] c2st0A)).report.live_photos_exported = 2 ∧
    (export_photos c2env 100 [c2photoA]
        (export_photos c2env 100 [c2photoA] c2st0A)).report.duplicates_skipped
      ≠ (export_photos c2env 100 [c2photoA] c2st0A).report.duplicates_skipped
        + ((export_photos c2env 100 [c2photoA] c2st0A).report.originals_exported
            + (export_photos c2env 100 [c2photoA] c2st0A).report.edits_exported
            + (export_photos c2env 100 [c2photoA] c2st0A).report.live_photos_exported) := by
  decide

/-- Witness for the amended C2 at a concrete one-photo library. -/
theorem C2_witness :
    (WFphoto c2photoB ∧ (targetsOf c2photoB).Nodup) ∧
    ((export_photos c2env 100 [c2photoB]
        (export_photos c2env 100 [c2photoB] c2st0B)).report.duplicates_skipped
      = (export_photos c2env 100 [c2photoB] c2st0B).report.duplicates_skipped
        + ([c2photoB].filter (fun p => decide (START_DATE 100 ≤ p.dateDay))).length ∧
    (export_photos c2env 100 [c2photoB]
        (export_photos c2env 100 [c2photoB] c2st0B)).report.originals_exported
      = (export_photos c2env 100 [c2photoB] c2st0B).report.originals_exported ∧
    (export_photos c2env 100 [c2photoB]
        (export_photos c2env 100 [c2photoB] c2st0B)).report.edits_exported
      = (export_photos c2env 100 [c2photoB] c2st0B).report.edits_exported ∧
    (export_photos c2env 100 [c2photoB]
        (export_photos c2env 100 [c2photoB] c2st0B)).report.live_photos_exported
      = (export_photos c2env 100 [c2photoB] c2st0B).report.live_photos_exported) :=
  ⟨by decide,
    C2_amended_second_run_skips_per_photo c2env c2env 100 [c2photoB] c2st0B
      (by decide) (List.Pairwise.cons (by simp) List.Pairwise.nil)
      (by decide) (by decide) (by decide)⟩

end PhotoExport
